import Mathlib

/-!
Shallow embedding of the pipeline dashboard's client-side state store
(`src/stores/pipeline.store.ts`) and of the notification service
(`notification.service.ts`), together with theorems checking the
natural-language specification against the code.

Conventions of the embedding:
* TypeScript optional fields (`x?: T`), and `Partial<...>` patch objects,
  become `Option` fields; `none` models "the property is absent or
  `undefined`".
* `Date` timestamps become `Nat` values supplied explicitly by the caller
  (`now` parameters), since the store only ever writes `new Date()`.
* Asynchronous service calls become explicit `Except String α` result
  parameters: `.ok v` is the resolved value, `.error msg` the rejection
  message (`error.message`).  An action's state effect is the composite of
  its pre-await and post-await mutations.
* The ambient unsubscribe handle kept on `window._pipelineUnsubscribe` is
  modelled as the extra field `unsubHandle`; `closedSubs` is a ghost
  history of handles on which the unsubscribe function has been invoked.
* JavaScript truthiness of `a || b` is modelled per operand type:
  a `number` is falsy when it is `0` (or absent), an array is falsy only
  when absent.
-/

namespace PipelineStore

/-- The step status union `'pending' | 'in-progress' | 'success' | 'error'`. -/
inductive StepStatusValue where
  | pending
  | inProgress
  | success
  | error
deriving DecidableEq, Repr

/-- `pipelineStatus` union `'idle' | 'running' | 'paused' | 'completed' | 'error'`. -/
inductive PipelineStatusValue where
  | idle
  | running
  | paused
  | completed
  | error
deriving DecidableEq, Repr

/-- `payloadUpdateSource` union `'settings' | 'individual'`. -/
inductive PayloadSource where
  | settings
  | individual
deriving DecidableEq, Repr

/-- `PipelineStepData` (full runtime step record, from `DetailPane`).
The opaque `payload: any` is modelled as an uninterpreted `Option String`. -/
structure PipelineStepData where
  id : String
  name : String
  status : StepStatusValue
  progress : Nat
  filesProcessed : Option Nat := none
  totalFiles : Option Nat := none
  warnings : Nat
  errors : Nat
  elapsedTime : Option String := none
  eta : Option String := none
  logs : List String
  payload : Option String := none
deriving DecidableEq, Repr

/-- `StepStatus` (condensed entry, from `VerticalStepper`).  The TS type
declares `status` required and `progress`/`warnings`/`errors` optional, but
`updateStepData` assigns `updates.status` etc. through `Object.assign`,
which at runtime can store `undefined` into any of the four fields; so all
four are modelled as `Option`. -/
structure StepStatus where
  id : String
  name : String
  status : Option StepStatusValue
  progress : Option Nat := none
  warnings : Option Nat := none
  errors : Option Nat := none
deriving DecidableEq, Repr

/-- `PipelineStepUpdate` (push-channel message, from `pipeline.service.ts`).
`metadata` is never read by the store and is omitted. -/
structure PipelineStepUpdate where
  stepId : String
  status : StepStatusValue
  progress : Nat
  logs : Option (List String) := none
  warnings : Option Nat := none
  errors : Option Nat := none
deriving DecidableEq, Repr

/-- `PipelineConfiguration` (from `pipeline.service.ts`). -/
structure PipelineConfiguration where
  id : String
  name : String
  steps : List PipelineStepData
  version : String
  createdAt : String
  updatedAt : String
deriving DecidableEq, Repr

/-- `Partial<PipelineStepData>`: each field is `some v` when the property is
present with a defined value, `none` when absent. -/
structure StepDataPatch where
  status : Option StepStatusValue := none
  progress : Option Nat := none
  filesProcessed : Option Nat := none
  totalFiles : Option Nat := none
  warnings : Option Nat := none
  errors : Option Nat := none
  elapsedTime : Option String := none
  eta : Option String := none
  logs : Option (List String) := none
  payload : Option String := none
deriving DecidableEq, Repr

/-- The runtime value held in the `expandedSteps` slot.  The store's own
code expects a `Set<string>` (`set` form, insertion-ordered and
duplicate-free), but `hydrate`'s plain `Object.assign` can store the
persisted JSON array there unchanged (`seq` form). -/
inductive ExpandedSteps where
  | set (elems : List String)
  | seq (elems : List String)
deriving DecidableEq, Repr

/-- The elements currently held in the `expandedSteps` slot, in order,
whichever runtime form it has. -/
def ExpandedSteps.elems : ExpandedSteps → List String
  | .set l => l
  | .seq l => l

/-- `new Set(array)`: keeps the first occurrence of each element, in
insertion order. -/
def jsSetOfArray (l : List String) : List String :=
  l.foldl (fun acc a => if a ∈ acc then acc else acc ++ [a]) []

/-- `PipelineState` of the store, plus the ambient subscription handle
(`window._pipelineUnsubscribe`, field `unsubHandle`) and the ghost history
`closedSubs` of handles whose unsubscribe function has been invoked. -/
structure PipelineState where
  configurations : List PipelineConfiguration
  currentConfiguration : Option PipelineConfiguration
  isLoadingConfigurations : Bool
  configurationError : Option String
  executionId : Option String
  pipelineStatus : PipelineStatusValue
  steps : List StepStatus
  stepData : List PipelineStepData
  currentStepIndex : Int
  expandedSteps : ExpandedSteps
  isLeftPanelCollapsed : Bool
  selectedStepId : Option String
  isConnected : Bool
  lastUpdate : Option Nat
  optimisticUpdates : List (String × StepDataPatch)
  payloadUpdateSource : Option PayloadSource
  unsubHandle : Option Nat
  closedSubs : List Nat
deriving DecidableEq, Repr

/-- The `initialState` object of the store (the ambient handle starts
absent, the ghost history empty). -/
def initialState : PipelineState where
  configurations := []
  currentConfiguration := none
  isLoadingConfigurations := false
  configurationError := none
  executionId := none
  pipelineStatus := .idle
  steps := []
  stepData := []
  currentStepIndex := -1
  expandedSteps := .set []
  isLeftPanelCollapsed := false
  selectedStepId := none
  isConnected := false
  lastUpdate := none
  optimisticUpdates := []
  payloadUpdateSource := none
  unsubHandle := none
  closedSubs := []

/-- JS `u || d` where `u : number | undefined`: `undefined` and `0` are
falsy, so both fall back to `d`. -/
def orNum : Option Nat → Nat → Nat
  | some n, d => if n = 0 then d else n
  | none, d => d

/-- JS `u || d` where `u : string[] | undefined`: only `undefined` is
falsy (an array, even empty, is truthy). -/
def orLogs : Option (List String) → List String → List String
  | some l, _ => l
  | none, d => d

/-- `findIndex` + in-place mutation of that element: rewrite the first
element satisfying `p` with `f`, leave the rest unchanged. -/
def updateFirst (p : α → Bool) (f : α → α) : List α → List α
  | [] => []
  | a :: l => if p a then f a :: l else a :: updateFirst p f l

/-- `handleStepUpdate`'s `Object.assign` onto the matched full-list entry:
`status`/`progress` unconditionally, `warnings`/`errors`/`logs` through
JS `||` fallback to the existing value. -/
def applyUpdateFull (u : PipelineStepUpdate) (d : PipelineStepData) : PipelineStepData :=
  { d with
    status := u.status
    progress := u.progress
    warnings := orNum u.warnings d.warnings
    errors := orNum u.errors d.errors
    logs := orLogs u.logs d.logs }

/-- `handleStepUpdate`'s `Object.assign` onto the matched condensed-list
entry: the literal `{status, progress, warnings: update.warnings, errors:
update.errors}` always carries all four keys, so the entry's four fields
are overwritten with the update's (possibly absent) values. -/
def applyUpdateCondensed (u : PipelineStepUpdate) (c : StepStatus) : StepStatus :=
  { c with
    status := some u.status
    progress := some u.progress
    warnings := u.warnings
    errors := u.errors }

/-- `handleStepUpdate(update)`: if a full-list entry matches
`update.stepId`, merge into it (and into the condensed entry when one
matches); in every case stamp `lastUpdate`. -/
def handleStepUpdate (u : PipelineStepUpdate) (now : Nat) (s : PipelineState) : PipelineState :=
  if (s.stepData.find? (fun d => d.id == u.stepId)).isSome then
    { s with
      stepData := updateFirst (fun d => d.id == u.stepId) (applyUpdateFull u) s.stepData
      steps := updateFirst (fun c => c.id == u.stepId) (applyUpdateCondensed u) s.steps
      lastUpdate := some now }
  else
    { s with lastUpdate := some now }

/-- The pre-await half of `loadConfigurations`: raise the loading flag and
clear the error field before fetching. -/
def loadConfigurationsStart (s : PipelineState) : PipelineState :=
  { s with isLoadingConfigurations := true, configurationError := none }

/-- The post-await half of `loadConfigurations`: replace the cached list on
success, record the message on failure; either way drop the loading flag. -/
def loadConfigurationsFinish (r : Except String (List PipelineConfiguration))
    (s : PipelineState) : PipelineState :=
  match r with
  | .ok cfgs => { s with configurations := cfgs, isLoadingConfigurations := false }
  | .error msg => { s with configurationError := some msg, isLoadingConfigurations := false }

/-- `loadConfigurations()` as a whole (pre-await then post-await). -/
def loadConfigurations (r : Except String (List PipelineConfiguration))
    (s : PipelineState) : PipelineState :=
  loadConfigurationsFinish r (loadConfigurationsStart s)

/-- The field-by-field mapping `loadConfiguration` uses to build the
condensed list from a fetched step. -/
def toCondensed (d : PipelineStepData) : StepStatus where
  id := d.id
  name := d.name
  status := some d.status
  progress := some d.progress
  warnings := some d.warnings
  errors := some d.errors

/-- `loadConfiguration(id)`: on success set the configuration current and
derive both step lists; on failure record the message only. -/
def loadConfiguration (r : Except String PipelineConfiguration)
    (s : PipelineState) : PipelineState :=
  match r with
  | .ok cfg =>
    { s with
      currentConfiguration := some cfg
      steps := cfg.steps.map toCondensed
      stepData := cfg.steps }
  | .error msg => { s with configurationError := some msg }

/-- `saveConfiguration(config)`: on success push the server-assigned
configuration and set it current; on failure record the message only. -/
def saveConfiguration (r : Except String PipelineConfiguration)
    (s : PipelineState) : PipelineState :=
  match r with
  | .ok cfg =>
    { s with
      configurations := s.configurations ++ [cfg]
      currentConfiguration := some cfg }
  | .error msg => { s with configurationError := some msg }

/-- `Partial<PipelineConfiguration>` for `updateCurrentConfiguration`. -/
structure ConfigPatch where
  id : Option String := none
  name : Option String := none
  steps : Option (List PipelineStepData) := none
  version : Option String := none
  createdAt : Option String := none
  updatedAt : Option String := none
deriving DecidableEq, Repr

/-- `updateCurrentConfiguration(updates)`: `Object.assign` into the current
configuration when one exists, no-op otherwise. -/
def updateCurrentConfiguration (p : ConfigPatch) (s : PipelineState) : PipelineState :=
  match s.currentConfiguration with
  | none => s
  | some c =>
    let c' : PipelineConfiguration :=
      { id := p.id.getD c.id
        name := p.name.getD c.name
        steps := p.steps.getD c.steps
        version := p.version.getD c.version
        createdAt := p.createdAt.getD c.createdAt
        updatedAt := p.updatedAt.getD c.updatedAt }
    { s with currentConfiguration := some c' }

/-- `connectToUpdates()`: no-op without an execution id or when already
connected; on a successful subscription mark connected and store the
unsubscribe handle; on failure change nothing. -/
def connectToUpdates (rc : Except String Nat) (s : PipelineState) : PipelineState :=
  if s.executionId.isNone || s.isConnected then s
  else
    match rc with
    | .ok sub => { s with isConnected := true, unsubHandle := some sub }
    | .error _ => s

/-- `startPipeline()`: no-op without a current configuration; on a
successful start set the execution fields then run `connectToUpdates`
(whose subscription outcome is `rc`); on failure change nothing. -/
def startPipeline (r : Except String String) (rc : Except String Nat)
    (s : PipelineState) : PipelineState :=
  match s.currentConfiguration with
  | none => s
  | some _ =>
    match r with
    | .ok execId =>
      connectToUpdates rc
        { s with
          executionId := some execId
          pipelineStatus := .running
          currentStepIndex := 0 }
    | .error _ => s

/-- `pausePipeline()`: no-op without an execution id; on endpoint success
set `pipelineStatus = paused`; on failure change nothing. -/
def pausePipeline (r : Except String Unit) (s : PipelineState) : PipelineState :=
  match s.executionId with
  | none => s
  | some _ =>
    match r with
    | .ok _ => { s with pipelineStatus := .paused }
    | .error _ => s

/-- `resumePipeline()`: no-op without an execution id; on endpoint success
set `pipelineStatus = running`; on failure change nothing. -/
def resumePipeline (r : Except String Unit) (s : PipelineState) : PipelineState :=
  match s.executionId with
  | none => s
  | some _ =>
    match r with
    | .ok _ => { s with pipelineStatus := .running }
    | .error _ => s

/-- `disconnectFromUpdates()`: invoke and delete the ambient unsubscribe
handle when present (the invocation is recorded in the ghost history), then
mark disconnected. -/
def disconnectFromUpdates (s : PipelineState) : PipelineState :=
  let s1 :=
    match s.unsubHandle with
    | some h => { s with closedSubs := h :: s.closedSubs, unsubHandle := none }
    | none => s
  { s1 with isConnected := false }

/-- `stopPipeline()`: no-op without an execution id; on endpoint success
reset the execution fields and tear down the subscription; on failure
change nothing. -/
def stopPipeline (r : Except String Unit) (s : PipelineState) : PipelineState :=
  match s.executionId with
  | none => s
  | some _ =>
    match r with
    | .ok _ =>
      disconnectFromUpdates
        { s with
          pipelineStatus := .idle
          executionId := none
          currentStepIndex := -1 }
    | .error _ => s

/-- `runStep(stepId)`: delegates to the endpoint and never mutates local
state (status changes arrive only over the push channel). -/
def runStep (_stepId : String) (_r : Except String Unit) (s : PipelineState) : PipelineState :=
  s

/-- `runFromStep(stepId)`: like `runStep`, no local state change. -/
def runFromStep (_stepId : String) (_r : Except String Unit) (s : PipelineState) : PipelineState :=
  s

/-- `updateStepData`'s `Object.assign(stepData[i], updates)`: only the
properties present in the patch overwrite the full-list entry. -/
def mergePatchFull (p : StepDataPatch) (d : PipelineStepData) : PipelineStepData where
  id := d.id
  name := d.name
  status := p.status.getD d.status
  progress := p.progress.getD d.progress
  filesProcessed := p.filesProcessed <|> d.filesProcessed
  totalFiles := p.totalFiles <|> d.totalFiles
  warnings := p.warnings.getD d.warnings
  errors := p.errors.getD d.errors
  elapsedTime := p.elapsedTime <|> d.elapsedTime
  eta := p.eta <|> d.eta
  logs := p.logs.getD d.logs
  payload := p.payload <|> d.payload

/-- `updateStepData`'s `Object.assign` onto the condensed entry: the object
literal `{status: updates.status, progress: updates.progress, warnings:
updates.warnings, errors: updates.errors}` always carries all four keys
(with value `undefined` when the patch lacks the property), so all four
fields are overwritten with the patch's values. -/
def mirrorPatchCondensed (p : StepDataPatch) (c : StepStatus) : StepStatus :=
  { c with
    status := p.status
    progress := p.progress
    warnings := p.warnings
    errors := p.errors }

/-- `updateStepData(stepId, updates)`: merge into the matched full-list
entry and mirror onto the condensed entry; stamp `lastUpdate`
unconditionally (the stamp sits outside the found-check in the source). -/
def updateStepData (stepId : String) (p : StepDataPatch) (now : Nat)
    (s : PipelineState) : PipelineState :=
  if (s.stepData.find? (fun d => d.id == stepId)).isSome then
    { s with
      stepData := updateFirst (fun d => d.id == stepId) (mergePatchFull p) s.stepData
      steps := updateFirst (fun c => c.id == stepId) (mirrorPatchCondensed p) s.steps
      lastUpdate := some now }
  else
    { s with lastUpdate := some now }

/-- `updateStepPayload(stepId, payload, source)`: optimistic local write of
the payload plus source and timestamp stamps; the backend call changes no
further state (failures are only logged). -/
def updateStepPayload (stepId : String) (payload : String) (src : PayloadSource)
    (now : Nat) (s : PipelineState) : PipelineState :=
  { s with
    stepData :=
      updateFirst (fun d => d.id == stepId)
        (fun d => { d with payload := some payload }) s.stepData
    payloadUpdateSource := some src
    lastUpdate := some now }

/-- `updateAllStepPayloads(stepUpdates)`: bulk payload writes, source fixed
to `settings`, one timestamp stamp. -/
def updateAllStepPayloads (ups : List (String × String)) (now : Nat)
    (s : PipelineState) : PipelineState :=
  { s with
    stepData :=
      ups.foldl
        (fun sd up =>
          updateFirst (fun d => d.id == up.1)
            (fun d => { d with payload := some up.2 }) sd)
        s.stepData
    payloadUpdateSource := some .settings
    lastUpdate := some now }

/-- `setCurrentStepIndex(index)`. -/
def setCurrentStepIndex (i : Int) (s : PipelineState) : PipelineState :=
  { s with currentStepIndex := i }

/-- `Set.has`/`delete`/`add` toggling on the `set` form.  On the `seq` form
(a plain array left by `hydrate`) `expandedSteps.has` raises a `TypeError`,
the immer producer aborts, and the state is left unchanged. -/
def ExpandedSteps.toggle (e : ExpandedSteps) (id : String) : ExpandedSteps :=
  match e with
  | .set l => if id ∈ l then .set (l.filter (· ≠ id)) else .set (l ++ [id])
  | .seq l => .seq l

/-- `toggleStepExpansion(stepId)`. -/
def toggleStepExpansion (id : String) (s : PipelineState) : PipelineState :=
  { s with expandedSteps := s.expandedSteps.toggle id }

/-- `setLeftPanelCollapsed(collapsed)`. -/
def setLeftPanelCollapsed (b : Bool) (s : PipelineState) : PipelineState :=
  { s with isLeftPanelCollapsed := b }

/-- `selectStep(stepId)`. -/
def selectStep (o : Option String) (s : PipelineState) : PipelineState :=
  { s with selectedStepId := o }

/-- Delivery of a push message on subscription `sub`: the subscription's
callback is `handleStepUpdate`, and a message reaches it only while `sub`
is still the live (not yet unsubscribed) subscription. -/
def deliverPush (sub : Nat) (u : PipelineStepUpdate) (now : Nat)
    (s : PipelineState) : PipelineState :=
  if s.unsubHandle = some sub then handleStepUpdate u now s else s

/-- JS `Map.set`: replace in place when the key exists (order preserved),
append otherwise. -/
def mapSet (k : String) (v : StepDataPatch) :
    List (String × StepDataPatch) → List (String × StepDataPatch)
  | [] => [(k, v)]
  | kv :: rest => if kv.1 == k then (k, v) :: rest else kv :: mapSet k v rest

/-- JS `Map.get` as an `Option`. -/
def mapGet (k : String) (m : List (String × StepDataPatch)) : Option StepDataPatch :=
  (m.find? (fun kv => kv.1 == k)).map (·.2)

/-- `applyOptimisticUpdate(stepId, updates)`: record the pending patch in
the map, then apply it immediately through `updateStepData`. -/
def applyOptimisticUpdate (stepId : String) (p : StepDataPatch) (now : Nat)
    (s : PipelineState) : PipelineState :=
  updateStepData stepId p now
    { s with optimisticUpdates := mapSet stepId p s.optimisticUpdates }

/-- `revertOptimisticUpdate(stepId)`: drop the map entry (no value
restoration in the source). -/
def revertOptimisticUpdate (stepId : String) (s : PipelineState) : PipelineState :=
  { s with optimisticUpdates := s.optimisticUpdates.filter (fun kv => kv.1 != stepId) }

/-- `commitOptimisticUpdate(stepId)`: drop the map entry. -/
def commitOptimisticUpdate (stepId : String) (s : PipelineState) : PipelineState :=
  { s with optimisticUpdates := s.optimisticUpdates.filter (fun kv => kv.1 != stepId) }

/-- `reset()`: tear down the subscription, then restore the initial state
(the ghost history of invoked unsubscribes is kept). -/
def reset (s : PipelineState) : PipelineState :=
  let s1 := disconnectFromUpdates s
  { initialState with closedSubs := s1.closedSubs }

/-- `Partial<PipelineState>` for `hydrate`: `some v` when the property is
present (its value may itself be `null`, hence nested `Option`s). -/
structure StatePatch where
  configurations : Option (List PipelineConfiguration) := none
  currentConfiguration : Option (Option PipelineConfiguration) := none
  isLoadingConfigurations : Option Bool := none
  configurationError : Option (Option String) := none
  executionId : Option (Option String) := none
  pipelineStatus : Option PipelineStatusValue := none
  steps : Option (List StepStatus) := none
  stepData : Option (List PipelineStepData) := none
  currentStepIndex : Option Int := none
  expandedSteps : Option ExpandedSteps := none
  isLeftPanelCollapsed : Option Bool := none
  selectedStepId : Option (Option String) := none
  isConnected : Option Bool := none
  lastUpdate : Option (Option Nat) := none
  optimisticUpdates : Option (List (String × StepDataPatch)) := none
  payloadUpdateSource : Option (Option PayloadSource) := none
deriving DecidableEq, Repr

/-- `hydrate(partialState)`: a plain `Object.assign(state, partialState)` —
every property present in the patch overwrites the field as-is, nothing is
converted or cleared.  The ambient handle and ghost history are not store
fields and are untouched. -/
def hydrate (p : StatePatch) (s : PipelineState) : PipelineState where
  configurations := p.configurations.getD s.configurations
  currentConfiguration := p.currentConfiguration.getD s.currentConfiguration
  isLoadingConfigurations := p.isLoadingConfigurations.getD s.isLoadingConfigurations
  configurationError := p.configurationError.getD s.configurationError
  executionId := p.executionId.getD s.executionId
  pipelineStatus := p.pipelineStatus.getD s.pipelineStatus
  steps := p.steps.getD s.steps
  stepData := p.stepData.getD s.stepData
  currentStepIndex := p.currentStepIndex.getD s.currentStepIndex
  expandedSteps := p.expandedSteps.getD s.expandedSteps
  isLeftPanelCollapsed := p.isLeftPanelCollapsed.getD s.isLeftPanelCollapsed
  selectedStepId := p.selectedStepId.getD s.selectedStepId
  isConnected := p.isConnected.getD s.isConnected
  lastUpdate := p.lastUpdate.getD s.lastUpdate
  optimisticUpdates := p.optimisticUpdates.getD s.optimisticUpdates
  payloadUpdateSource := p.payloadUpdateSource.getD s.payloadUpdateSource
  unsubHandle := s.unsubHandle
  closedSubs := s.closedSubs

/-- The persist middleware's `onRehydrateStorage` callback: convert the
restored `expandedSteps` value back to a `Set` (`new Set(...)`) and start
the optimistic-update map empty. -/
def onRehydrateStorage (s : PipelineState) : PipelineState :=
  { s with
    expandedSteps := .set (jsSetOfArray s.expandedSteps.elems)
    optimisticUpdates := [] }

/-- One store action, with every service-call outcome it consumes embedded
as data (`.ok`/`.error` reflect resolution/rejection of the await). -/
inductive Action where
  | loadConfigurations (r : Except String (List PipelineConfiguration))
  | loadConfiguration (r : Except String PipelineConfiguration)
  | saveConfiguration (r : Except String PipelineConfiguration)
  | updateCurrentConfiguration (p : ConfigPatch)
  | startPipeline (r : Except String String) (rc : Except String Nat)
  | pausePipeline (r : Except String Unit)
  | resumePipeline (r : Except String Unit)
  | stopPipeline (r : Except String Unit)
  | runStep (stepId : String) (r : Except String Unit)
  | runFromStep (stepId : String) (r : Except String Unit)
  | updateStepData (stepId : String) (p : StepDataPatch) (now : Nat)
  | updateStepPayload (stepId : String) (payload : String) (src : PayloadSource) (now : Nat)
  | updateAllStepPayloads (ups : List (String × String)) (now : Nat)
  | setCurrentStepIndex (i : Int)
  | toggleStepExpansion (stepId : String)
  | setLeftPanelCollapsed (b : Bool)
  | selectStep (o : Option String)
  | handleStepUpdate (u : PipelineStepUpdate) (now : Nat)
  | connectToUpdates (rc : Except String Nat)
  | disconnectFromUpdates
  | applyOptimisticUpdate (stepId : String) (p : StepDataPatch) (now : Nat)
  | revertOptimisticUpdate (stepId : String)
  | commitOptimisticUpdate (stepId : String)
  | reset
  | hydrate (p : StatePatch)
deriving Repr

/-- The state effect of one store action. -/
def applyAction : Action → PipelineState → PipelineState
  | .loadConfigurations r, s => loadConfigurations r s
  | .loadConfiguration r, s => loadConfiguration r s
  | .saveConfiguration r, s => saveConfiguration r s
  | .updateCurrentConfiguration p, s => updateCurrentConfiguration p s
  | .startPipeline r rc, s => startPipeline r rc s
  | .pausePipeline r, s => pausePipeline r s
  | .resumePipeline r, s => resumePipeline r s
  | .stopPipeline r, s => stopPipeline r s
  | .runStep stepId r, s => runStep stepId r s
  | .runFromStep stepId r, s => runFromStep stepId r s
  | .updateStepData stepId p now, s => updateStepData stepId p now s
  | .updateStepPayload stepId payload src now, s => updateStepPayload stepId payload src now s
  | .updateAllStepPayloads ups now, s => updateAllStepPayloads ups now s
  | .setCurrentStepIndex i, s => setCurrentStepIndex i s
  | .toggleStepExpansion stepId, s => toggleStepExpansion stepId s
  | .setLeftPanelCollapsed b, s => setLeftPanelCollapsed b s
  | .selectStep o, s => selectStep o s
  | .handleStepUpdate u now, s => handleStepUpdate u now s
  | .connectToUpdates rc, s => connectToUpdates rc s
  | .disconnectFromUpdates, s => disconnectFromUpdates s
  | .applyOptimisticUpdate stepId p now, s => applyOptimisticUpdate stepId p now s
  | .revertOptimisticUpdate stepId, s => revertOptimisticUpdate stepId s
  | .commitOptimisticUpdate stepId, s => commitOptimisticUpdate stepId s
  | .reset, s => reset s
  | .hydrate p, s => hydrate p s

/-- Run a sequence of store actions starting from a given state. -/
def runFrom (s : PipelineState) (tr : List Action) : PipelineState :=
  tr.foldl (fun t a => applyAction a t) s

/-- Run a sequence of store actions from the initial state. -/
def runActions (tr : List Action) : PipelineState :=
  runFrom initialState tr

/-- The execution-identity invariant of §3: `executionId` is non-null iff
`pipelineStatus` is `running` or `paused`. -/
def execInv (s : PipelineState) : Prop :=
  s.executionId.isSome = true ↔
    (s.pipelineStatus = .running ∨ s.pipelineStatus = .paused)

instance (s : PipelineState) : Decidable (execInv s) := by
  unfold execInv; infer_instance

/-- Restriction of a trace to the documented use of `hydrate`: it only
restores persisted UI preferences, so its patch carries neither
`executionId` nor `pipelineStatus`.  Every other action is unrestricted. -/
def safeAction : Action → Prop
  | .hydrate p => p.executionId = none ∧ p.pipelineStatus = none
  | _ => True

end PipelineStore

namespace NotificationService

/-- The notification `type` union `'success' | 'error' | 'warning' | 'info'`. -/
inductive NotificationKind where
  | success
  | error
  | warning
  | info
deriving DecidableEq, Repr

/-- `NotificationOptions`.  The `actions` array of label/callback pairs is
modelled by the labels (the callbacks are never invoked by the service). -/
structure NotificationOptions where
  kind : NotificationKind
  title : String
  message : Option String := none
  duration : Option Nat := none
  persistent : Option Bool := none
  actionLabels : List String := []
deriving DecidableEq, Repr

/-- `ToastNotification`: the options plus the generated `id` and the
`timestamp`. -/
structure ToastNotification where
  kind : NotificationKind
  title : String
  message : Option String := none
  duration : Option Nat := none
  persistent : Option Bool := none
  actionLabels : List String := []
  id : String
  timestamp : Nat
deriving DecidableEq, Repr

/-- A subscriber callback; `.error msg` models the callback throwing. -/
def Callback : Type := ToastNotification → Except String Unit

/-- The notification built by `show` from its options (spread of the
options plus the generated id and timestamp). -/
def mkToast (opts : NotificationOptions) (freshId : String) (ts : Nat) :
    ToastNotification where
  kind := opts.kind
  title := opts.title
  message := opts.message
  duration := opts.duration
  persistent := opts.persistent
  actionLabels := opts.actionLabels
  id := freshId
  timestamp := ts

/-- `notifySubscribers`: a `forEach` whose body wraps each callback call in
`try`/`catch`, so a throwing callback is caught (and logged) and iteration
continues with the next subscriber.  The returned list records each
callback's outcome, in subscriber order. -/
def notifySubscribers (subs : List Callback) (n : ToastNotification) :
    List (Except String Unit) :=
  match subs with
  | [] => []
  | cb :: rest => cb n :: notifySubscribers rest n

/-- JS `Map.set` on the active-notification map. -/
def mapSetToast (k : String) (v : ToastNotification) :
    List (String × ToastNotification) → List (String × ToastNotification)
  | [] => [(k, v)]
  | kv :: rest => if kv.1 == k then (k, v) :: rest else kv :: mapSetToast k v rest

/-- In-memory state of the service: the subscriber set (in insertion
order) and the active-notification map. -/
structure ServiceState where
  subscribers : List Callback
  activeNotifications : List (String × ToastNotification)

/-- `NotificationService.show` (named `showNotification` because `show` is
a Lean keyword).  Builds the notification, stores it in the active map,
synchronously notifies every subscriber, and — unless `persistent` is
truthy — schedules an auto-dismiss after `duration || 5000` ms.  Returns
the new state, the outcome of each subscriber callback in order, the
scheduled dismissal (id and delay) if any, and the returned id.  The
function itself never propagates a subscriber's exception. -/
def showNotification (opts : NotificationOptions) (freshId : String) (ts : Nat)
    (st : ServiceState) :
    ServiceState × List (Except String Unit) × Option (String × Nat) × String :=
  let n := mkToast opts freshId ts
  let st' : ServiceState :=
    { st with activeNotifications := mapSetToast n.id n st.activeNotifications }
  let outcomes := notifySubscribers st.subscribers n
  let sched :=
    if opts.persistent.getD false then none
    else some (n.id, PipelineStore.orNum opts.duration 5000)
  (st', outcomes, sched, n.id)

end NotificationService

namespace PipelineStore

/-- A concrete step record used to evaluate the store on explicit inputs. -/
def stepA : PipelineStepData where
  id := "extraction"
  name := "Extraction"
  status := .pending
  progress := 10
  warnings := 3
  errors := 1
  logs := ["log-1"]

/-- The condensed entry derived from `stepA`. -/
def condA : StepStatus := toCondensed stepA

/-- A concrete configuration holding `stepA`. -/
def cfgA : PipelineConfiguration where
  id := "cfg-1"
  name := "Demo"
  steps := [stepA]
  version := "1"
  createdAt := "t0"
  updatedAt := "t0"

/-- A concrete store state: `cfgA` loaded and an execution running with a
live subscription handle `7`. -/
def baseState : PipelineState :=
  { initialState with
    configurations := [cfgA]
    currentConfiguration := some cfgA
    stepData := [stepA]
    steps := [condA]
    executionId := some "exec-1"
    pipelineStatus := .running
    currentStepIndex := 0
    isConnected := true
    unsubHandle := some 7 }

/-- A push update for `stepA` that carries no `warnings`/`errors`/`logs`. -/
def updNoCounts : PipelineStepUpdate where
  stepId := "extraction"
  status := .success
  progress := 100

/-- A push update for `stepA` whose `warnings`/`errors` are present but `0`. -/
def updZeroCounts : PipelineStepUpdate where
  stepId := "extraction"
  status := .success
  progress := 100
  warnings := some 0
  errors := some 0

/-- The hydration patch of the §8 scenario, extended with a (never
intentionally persisted) optimistic-update entry. -/
def patchC6 : StatePatch where
  isLeftPanelCollapsed := some true
  expandedSteps := some (.seq ["extraction", "detection"])
  optimisticUpdates := some [("extraction", { progress := some 1 })]

end PipelineStore

namespace NotificationService

/-- A concrete subscriber callback that always throws. -/
def cbThrow : Callback := fun _ => Except.error "boom"

/-- A concrete subscriber callback that always succeeds. -/
def cbOk : Callback := fun _ => Except.ok ()

/-- A concrete service state with a throwing subscriber registered before
a well-behaved one. -/
def stC8 : ServiceState where
  subscribers := [cbThrow, cbOk]
  activeNotifications := []

/-- Concrete options for a shown notification. -/
def optsC8 : NotificationOptions where
  kind := .info
  title := "Step Completed"

end NotificationService

namespace PipelineStore

/-- `updateFirst` rewrites the first element matched by `p` with `f` and
the rewritten element is still the first match when `f` preserves `p`. -/
theorem updateFirst_find? {α : Type} {p : α → Bool} {f : α → α}
    (hpf : ∀ a, p a = true → p (f a) = true)
    {l : List α} {d : α} (h : l.find? p = some d) :
    (updateFirst p f l).find? p = some (f d) := by
  induction l with
  | nil => simp at h
  | cons a l ih =>
    by_cases hpa : p a = true
    · rw [List.find?_cons_of_pos _ hpa] at h
      obtain rfl : a = d := by injection h
      rw [updateFirst, if_pos hpa, List.find?_cons_of_pos _ (hpf a hpa)]
    · rw [List.find?_cons_of_neg _ hpa] at h
      rw [updateFirst, if_neg hpa, List.find?_cons_of_neg _ hpa]
      exact ih h

/-- Rewriting the first match twice is the same as rewriting it once, when
`f` preserves `p` and is idempotent on matches. -/
theorem updateFirst_updateFirst {α : Type} {p : α → Bool} {f : α → α}
    (hpf : ∀ a, p a = true → p (f a) = true)
    (hff : ∀ a, p a = true → f (f a) = f a) (l : List α) :
    updateFirst p f (updateFirst p f l) = updateFirst p f l := by
  induction l with
  | nil => rfl
  | cons a l ih =>
    by_cases hpa : p a = true
    · rw [updateFirst, if_pos hpa, updateFirst, if_pos (hpf a hpa), hff a hpa]
    · rw [updateFirst, if_neg hpa, updateFirst, if_neg hpa, ih]

/-- JS `||` over an optional number is idempotent. -/
theorem orNum_idem (u : Option Nat) (d : Nat) : orNum u (orNum u d) = orNum u d := by
  cases u with
  | none => rfl
  | some n => by_cases h : n = 0 <;> simp [orNum, h]

/-- JS `||` over an optional array is idempotent. -/
theorem orLogs_idem (u : Option (List String)) (d : List String) :
    orLogs u (orLogs u d) = orLogs u d := by
  cases u <;> rfl

/-- The full-list merge of one push update is idempotent. -/
theorem applyUpdateFull_idem (u : PipelineStepUpdate) (d : PipelineStepData) :
    applyUpdateFull u (applyUpdateFull u d) = applyUpdateFull u d := by
  simp [applyUpdateFull, orNum_idem, orLogs_idem]

/-- The condensed-list merge of one push update is idempotent. -/
theorem applyUpdateCondensed_idem (u : PipelineStepUpdate) (c : StepStatus) :
    applyUpdateCondensed u (applyUpdateCondensed u c) = applyUpdateCondensed u c := rfl

/-- Membership under the first-occurrence fold behind `jsSetOfArray`. -/
theorem mem_foldlInsert (l : List String) (acc : List String) (x : String) :
    (x ∈ l.foldl (fun acc a => if a ∈ acc then acc else acc ++ [a]) acc) ↔
      (x ∈ acc ∨ x ∈ l) := by
  induction l generalizing acc with
  | nil => simp
  | cons a l ih =>
    rw [List.foldl_cons, ih]
    by_cases h : a ∈ acc
    · simp only [if_pos h, List.mem_cons]
      constructor
      · rintro (hx | hx)
        · exact Or.inl hx
        · exact Or.inr (Or.inr hx)
      · rintro (hx | rfl | hx)
        · exact Or.inl hx
        · exact Or.inl h
        · exact Or.inr hx
    · simp only [if_neg h, List.mem_append, List.mem_singleton, List.mem_cons]
      tauto

/-- `new Set(array)` holds exactly the array's elements. -/
theorem mem_jsSetOfArray (l : List String) (x : String) :
    x ∈ jsSetOfArray l ↔ x ∈ l := by
  simpa [jsSetOfArray] using mem_foldlInsert l [] x

/-- `Map.get` after `Map.set` of the same key. -/
theorem mapGet_mapSet (k : String) (v : StepDataPatch)
    (m : List (String × StepDataPatch)) :
    mapGet k (mapSet k v m) = some v := by
  induction m with
  | nil => simp [mapGet, mapSet]
  | cons kv rest ih =>
    by_cases h : (kv.1 == k) = true
    · simp [mapSet, h, mapGet]
    · have h' : (kv.1 == k) = false := by simpa using h
      rw [mapSet, if_neg h]
      simpa [mapGet, List.find?_cons, h'] using ih

/-- `connectToUpdates` never changes `executionId` or `pipelineStatus`. -/
theorem connectToUpdates_frame (rc : Except String Nat) (s : PipelineState) :
    (connectToUpdates rc s).executionId = s.executionId ∧
    (connectToUpdates rc s).pipelineStatus = s.pipelineStatus := by
  unfold connectToUpdates
  split
  · exact ⟨rfl, rfl⟩
  · cases rc <;> exact ⟨rfl, rfl⟩

/-- `disconnectFromUpdates` never changes `executionId` or `pipelineStatus`. -/
theorem disconnectFromUpdates_frame (s : PipelineState) :
    (disconnectFromUpdates s).executionId = s.executionId ∧
    (disconnectFromUpdates s).pipelineStatus = s.pipelineStatus := by
  unfold disconnectFromUpdates
  cases s.unsubHandle <;> exact ⟨rfl, rfl⟩

/-- `updateStepData` never changes `executionId` or `pipelineStatus`. -/
theorem updateStepData_frame (stepId : String) (p : StepDataPatch) (now : Nat)
    (s : PipelineState) :
    (updateStepData stepId p now s).executionId = s.executionId ∧
    (updateStepData stepId p now s).pipelineStatus = s.pipelineStatus := by
  unfold updateStepData
  split <;> exact ⟨rfl, rfl⟩

/-- `handleStepUpdate` never changes `executionId` or `pipelineStatus`. -/
theorem handleStepUpdate_frame (u : PipelineStepUpdate) (now : Nat)
    (s : PipelineState) :
    (handleStepUpdate u now s).executionId = s.executionId ∧
    (handleStepUpdate u now s).pipelineStatus = s.pipelineStatus := by
  unfold handleStepUpdate
  split <;> exact ⟨rfl, rfl⟩

/-- Transfer of the execution-identity invariant along equal fields. -/
theorem execInv_of_frame {s t : PipelineState}
    (hid : t.executionId = s.executionId)
    (hst : t.pipelineStatus = s.pipelineStatus)
    (hs : execInv s) : execInv t := by
  unfold execInv at hs ⊢
  rw [hid, hst]
  exact hs

/-- C1 counterexample: a push update with absent `warnings`/`errors` leaves
the full-list value `3` in place but overwrites the condensed-list value
`some 3` with `none` — the two lists are not updated identically and the
condensed list does not preserve the existing value; moreover a present
`warnings: 0` is falsy under `||`, so the full list keeps `3` instead of
taking the update's `0`. -/
theorem handleStepUpdate_not_uniform :
    ((handleStepUpdate updNoCounts 5 baseState).stepData.map
        (fun d => d.warnings) = [3]) ∧
    (baseState.steps.map (fun c => c.warnings) = [some 3]) ∧
    ((handleStepUpdate updNoCounts 5 baseState).steps.map
        (fun c => c.warnings) = [none]) ∧
    ((handleStepUpdate updZeroCounts 5 baseState).stepData.map
        (fun d => d.warnings) = [3]) := by
  decide

/-- C1 (amended): `handleStepUpdate` sets `status` and `progress` from the
update in both lists; in the full list `warnings`/`errors` are taken from
the update only when present and non-zero (JS `||`), and `logs` only when
present, the existing value being preserved otherwise; in the condensed
list `warnings`/`errors` are always overwritten with the update's possibly
absent values; `lastUpdate` is stamped. -/
theorem handleStepUpdate_merge (u : PipelineStepUpdate) (now : Nat)
    (s : PipelineState) (d : PipelineStepData) (c : StepStatus)
    (hd : s.stepData.find? (fun x => x.id == u.stepId) = some d)
    (hc : s.steps.find? (fun x => x.id == u.stepId) = some c) :
    (handleStepUpdate u now s).stepData.find? (fun x => x.id == u.stepId)
      = some (applyUpdateFull u d) ∧
    (handleStepUpdate u now s).steps.find? (fun x => x.id == u.stepId)
      = some (applyUpdateCondensed u c) ∧
    (applyUpdateFull u d).status = u.status ∧
    (applyUpdateFull u d).progress = u.progress ∧
    (applyUpdateFull u d).warnings = orNum u.warnings d.warnings ∧
    (applyUpdateFull u d).errors = orNum u.errors d.errors ∧
    (applyUpdateFull u d).logs = orLogs u.logs d.logs ∧
    (applyUpdateFull u d).id = d.id ∧
    (applyUpdateFull u d).name = d.name ∧
    (applyUpdateFull u d).payload = d.payload ∧
    (applyUpdateCondensed u c).status = some u.status ∧
    (applyUpdateCondensed u c).progress = some u.progress ∧
    (applyUpdateCondensed u c).warnings = u.warnings ∧
    (applyUpdateCondensed u c).errors = u.errors ∧
    (applyUpdateCondensed u c).id = c.id ∧
    (applyUpdateCondensed u c).name = c.name ∧
    (handleStepUpdate u now s).lastUpdate = some now := by
  have hpfd : ∀ a : PipelineStepData, (a.id == u.stepId) = true →
      ((applyUpdateFull u a).id == u.stepId) = true := fun _ ha => ha
  have hpfc : ∀ a : StepStatus, (a.id == u.stepId) = true →
      ((applyUpdateCondensed u a).id == u.stepId) = true := fun _ ha => ha
  refine ⟨?_, ?_, rfl, rfl, rfl, rfl, rfl, rfl, rfl, rfl, rfl, rfl, rfl, rfl,
    rfl, rfl, ?_⟩
  · unfold handleStepUpdate
    rw [if_pos (by simp [hd])]
    exact updateFirst_find? hpfd hd
  · unfold handleStepUpdate
    rw [if_pos (by simp [hd])]
    exact updateFirst_find? hpfc hc
  · unfold handleStepUpdate
    rw [if_pos (by simp [hd])]

/-- C1 witness: the amended merge theorem evaluated on the concrete
running state and the count-free push update. -/
theorem handleStepUpdate_merge_witness :
    (handleStepUpdate updNoCounts 5 baseState).stepData.find?
        (fun x => x.id == updNoCounts.stepId)
      = some (applyUpdateFull updNoCounts stepA) ∧
    (handleStepUpdate updNoCounts 5 baseState).steps.find?
        (fun x => x.id == updNoCounts.stepId)
      = some (applyUpdateCondensed updNoCounts condA) ∧
    (handleStepUpdate updNoCounts 5 baseState).lastUpdate = some 5 := by
  have h := handleStepUpdate_merge updNoCounts 5 baseState stepA condA
    (by decide) (by decide)
  exact ⟨h.1, h.2.1, h.2.2.2.2.2.2.2.2.2.2.2.2.2.2.2.2⟩

/-- C2: applying the same push update twice yields the same full and
condensed step lists after the second application as after the first
(idempotence up to `lastUpdate`). -/
theorem handleStepUpdate_idem (u : PipelineStepUpdate) (t₁ t₂ : Nat)
    (s : PipelineState) :
    (handleStepUpdate u t₂ (handleStepUpdate u t₁ s)).stepData
      = (handleStepUpdate u t₁ s).stepData ∧
    (handleStepUpdate u t₂ (handleStepUpdate u t₁ s)).steps
      = (handleStepUpdate u t₁ s).steps := by
  have hpfd : ∀ a : PipelineStepData, (a.id == u.stepId) = true →
      ((applyUpdateFull u a).id == u.stepId) = true := fun _ ha => ha
  have hpfc : ∀ a : StepStatus, (a.id == u.stepId) = true →
      ((applyUpdateCondensed u a).id == u.stepId) = true := fun _ ha => ha
  cases h : s.stepData.find? (fun x => x.id == u.stepId) with
  | none =>
    have hinner : handleStepUpdate u t₁ s = { s with lastUpdate := some t₁ } := by
      unfold handleStepUpdate
      rw [if_neg (by simp [h])]
    rw [hinner]
    unfold handleStepUpdate
    rw [if_neg (by simp [h])]
    exact ⟨rfl, rfl⟩
  | some d =>
    have h2 := updateFirst_find? hpfd h
    have hinner : handleStepUpdate u t₁ s
        = { s with
            stepData := updateFirst (fun x => x.id == u.stepId)
              (applyUpdateFull u) s.stepData
            steps := updateFirst (fun x => x.id == u.stepId)
              (applyUpdateCondensed u) s.steps
            lastUpdate := some t₁ } := by
      unfold handleStepUpdate
      rw [if_pos (by simp [h])]
    rw [hinner]
    unfold handleStepUpdate
    rw [if_pos (by simp [h2])]
    exact ⟨updateFirst_updateFirst hpfd (fun a _ => applyUpdateFull_idem u a) _,
      updateFirst_updateFirst hpfc (fun a _ => applyUpdateCondensed_idem u a) _⟩

/-- Every store action whose `hydrate` patches carry neither `executionId`
nor `pipelineStatus` preserves the execution-identity invariant. -/
theorem applyAction_execInv {a : Action} {s : PipelineState}
    (ha : safeAction a) (hs : execInv s) : execInv (applyAction a s) := by
  cases a with
  | loadConfigurations r => cases r <;> exact execInv_of_frame rfl rfl hs
  | loadConfiguration r => cases r <;> exact execInv_of_frame rfl rfl hs
  | saveConfiguration r => cases r <;> exact execInv_of_frame rfl rfl hs
  | updateCurrentConfiguration p =>
    cases h : s.currentConfiguration <;>
      exact execInv_of_frame
        (by simp [applyAction, updateCurrentConfiguration, h])
        (by simp [applyAction, updateCurrentConfiguration, h]) hs
  | startPipeline r rc =>
    cases h : s.currentConfiguration with
    | none =>
      have hid : applyAction (.startPipeline r rc) s = s := by
        simp [applyAction, startPipeline, h]
      rw [hid]; exact hs
    | some c =>
      cases r with
      | error e =>
        have hid : applyAction (.startPipeline (.error e) rc) s = s := by
          simp [applyAction, startPipeline, h]
        rw [hid]; exact hs
      | ok eid =>
        have h1 : applyAction (.startPipeline (.ok eid) rc) s
            = connectToUpdates rc
                { s with
                  executionId := some eid
                  pipelineStatus := .running
                  currentStepIndex := 0 } := by
          simp [applyAction, startPipeline, h]
        rw [h1]
        refine execInv_of_frame (connectToUpdates_frame rc _).1
          (connectToUpdates_frame rc _).2 ?_
        unfold execInv
        simp
  | pausePipeline r =>
    cases h : s.executionId with
    | none =>
      have hid : applyAction (.pausePipeline r) s = s := by
        simp [applyAction, pausePipeline, h]
      rw [hid]; exact hs
    | some e =>
      cases r with
      | error msg =>
        have hid : applyAction (.pausePipeline (.error msg)) s = s := by
          simp [applyAction, pausePipeline, h]
        rw [hid]; exact hs
      | ok v =>
        have h1 : applyAction (.pausePipeline (.ok v)) s
            = { s with pipelineStatus := .paused } := by
          simp [applyAction, pausePipeline, h]
        rw [h1]
        unfold execInv
        simp [h]
  | resumePipeline r =>
    cases h : s.executionId with
    | none =>
      have hid : applyAction (.resumePipeline r) s = s := by
        simp [applyAction, resumePipeline, h]
      rw [hid]; exact hs
    | some e =>
      cases r with
      | error msg =>
        have hid : applyAction (.resumePipeline (.error msg)) s = s := by
          simp [applyAction, resumePipeline, h]
        rw [hid]; exact hs
      | ok v =>
        have h1 : applyAction (.resumePipeline (.ok v)) s
            = { s with pipelineStatus := .running } := by
          simp [applyAction, resumePipeline, h]
        rw [h1]
        unfold execInv
        simp [h]
  | stopPipeline r =>
    cases h : s.executionId with
    | none =>
      have hid : applyAction (.stopPipeline r) s = s := by
        simp [applyAction, stopPipeline, h]
      rw [hid]; exact hs
    | some e =>
      cases r with
      | error msg =>
        have hid : applyAction (.stopPipeline (.error msg)) s = s := by
          simp [applyAction, stopPipeline, h]
        rw [hid]; exact hs
      | ok v =>
        have h1 : applyAction (.stopPipeline (.ok v)) s
            = disconnectFromUpdates
                { s with
                  pipelineStatus := .idle
                  executionId := none
                  currentStepIndex := -1 } := by
          simp [applyAction, stopPipeline, h]
        rw [h1]
        refine execInv_of_frame (disconnectFromUpdates_frame _).1
          (disconnectFromUpdates_frame _).2 ?_
        unfold execInv
        simp
  | runStep stepId r => exact hs
  | runFromStep stepId r => exact hs
  | updateStepData stepId p now =>
    exact execInv_of_frame (updateStepData_frame stepId p now s).1
      (updateStepData_frame stepId p now s).2 hs
  | updateStepPayload stepId payload src now => exact execInv_of_frame rfl rfl hs
  | updateAllStepPayloads ups now => exact execInv_of_frame rfl rfl hs
  | setCurrentStepIndex i => exact execInv_of_frame rfl rfl hs
  | toggleStepExpansion stepId => exact execInv_of_frame rfl rfl hs
  | setLeftPanelCollapsed b => exact execInv_of_frame rfl rfl hs
  | selectStep o => exact execInv_of_frame rfl rfl hs
  | handleStepUpdate u now =>
    exact execInv_of_frame (handleStepUpdate_frame u now s).1
      (handleStepUpdate_frame u now s).2 hs
  | connectToUpdates rc =>
    exact execInv_of_frame (connectToUpdates_frame rc s).1
      (connectToUpdates_frame rc s).2 hs
  | disconnectFromUpdates =>
    exact execInv_of_frame (disconnectFromUpdates_frame s).1
      (disconnectFromUpdates_frame s).2 hs
  | applyOptimisticUpdate stepId p now =>
    exact execInv_of_frame
      ((updateStepData_frame stepId p now
        { s with optimisticUpdates := mapSet stepId p s.optimisticUpdates }).1)
      ((updateStepData_frame stepId p now
        { s with optimisticUpdates := mapSet stepId p s.optimisticUpdates }).2) hs
  | revertOptimisticUpdate stepId => exact execInv_of_frame rfl rfl hs
  | commitOptimisticUpdate stepId => exact execInv_of_frame rfl rfl hs
  | reset =>
    unfold execInv
    simp [applyAction, reset, initialState]
  | hydrate p =>
    obtain ⟨h1, h2⟩ := ha
    exact execInv_of_frame (by simp [applyAction, hydrate, h1])
      (by simp [applyAction, hydrate, h2]) hs

/-- The invariant holds along any trace of safe actions from an invariant
state. -/
theorem runFrom_execInv (tr : List Action) (s : PipelineState)
    (hs : execInv s) (h : ∀ a ∈ tr, safeAction a) : execInv (runFrom s tr) := by
  induction tr generalizing s with
  | nil => exact hs
  | cons a tr ih =>
    exact ih (applyAction a s)
      (applyAction_execInv (h a (List.mem_cons_self a tr)) hs)
      (fun b hb => h b (List.mem_cons_of_mem a hb))

/-- C3 counterexample: `hydrate` is itself a store action, and hydrating a
partial state that carries an `executionId` produces a reachable state
with a non-null `executionId` while `pipelineStatus` is still `idle`. -/
theorem execInv_not_all_traces :
    ¬ execInv (runActions [Action.hydrate { executionId := some (some "exec-9") }]) := by
  decide

/-- C3 (amended): in every state reachable from the initial state by store
actions whose `hydrate` patches carry neither `executionId` nor
`pipelineStatus` (the persisted-UI-preference use of `hydrate`),
`executionId` is non-null iff `pipelineStatus` is `running` or `paused`. -/
theorem execInv_reachable (tr : List Action) (h : ∀ a ∈ tr, safeAction a) :
    execInv (runActions tr) :=
  runFrom_execInv tr initialState (by decide) h

/-- C3 witness: the amended invariant evaluated on a concrete trace that
loads a configuration, starts, pauses and stops an execution and performs
a UI-preference hydration. -/
theorem execInv_reachable_witness :
    execInv (runActions
      [Action.hydrate { isLeftPanelCollapsed := some true },
       Action.loadConfiguration (.ok cfgA),
       Action.startPipeline (.ok "exec-1") (.ok 3),
       Action.pausePipeline (.ok ()),
       Action.stopPipeline (.ok ())]) := by
  refine execInv_reachable _ ?_
  intro a ha
  simp only [List.mem_cons, List.not_mem_nil, or_false] at ha
  rcases ha with rfl | rfl | rfl | rfl | rfl
  · exact ⟨rfl, rfl⟩
  all_goals trivial

/-- Closed form of `disconnectFromUpdates`. -/
theorem disconnectFromUpdates_eq (s : PipelineState) :
    disconnectFromUpdates s
      = { s with
          isConnected := false
          unsubHandle := none
          closedSubs :=
            match s.unsubHandle with
            | some h => h :: s.closedSubs
            | none => s.closedSubs } := by
  unfold disconnectFromUpdates
  cases hu : s.unsubHandle <;> simp [hu]

/-- C4: `stopPipeline` is a no-op when `executionId` is null; when it is
non-null and the stop endpoint succeeds, afterward the status is `idle`,
the execution id is cleared, `currentStepIndex` is `-1`, the store is
disconnected, the unsubscribe handle has been invoked (recorded in the
ghost history) and cleared, and a subsequent push delivery on any
subscription leaves the state unchanged. -/
theorem stopPipeline_spec (s : PipelineState) (r : Except String Unit) :
    (s.executionId = none → stopPipeline r s = s) ∧
    (s.executionId.isSome = true →
      (stopPipeline (Except.ok ()) s).pipelineStatus = .idle ∧
      (stopPipeline (Except.ok ()) s).executionId = none ∧
      (stopPipeline (Except.ok ()) s).currentStepIndex = -1 ∧
      (stopPipeline (Except.ok ()) s).isConnected = false ∧
      (stopPipeline (Except.ok ()) s).unsubHandle = none ∧
      (∀ h, s.unsubHandle = some h →
        h ∈ (stopPipeline (Except.ok ()) s).closedSubs) ∧
      (∀ sub u now, deliverPush sub u now (stopPipeline (Except.ok ()) s)
        = stopPipeline (Except.ok ()) s)) := by
  constructor
  · intro h
    simp [stopPipeline, h]
  · intro h
    obtain ⟨e, he⟩ := Option.isSome_iff_exists.mp h
    have hstop : stopPipeline (Except.ok ()) s
        = disconnectFromUpdates
            { s with
              pipelineStatus := .idle
              executionId := none
              currentStepIndex := -1 } := by
      simp [stopPipeline, he]
    rw [hstop, disconnectFromUpdates_eq]
    refine ⟨rfl, rfl, rfl, rfl, rfl, ?_, ?_⟩
    · intro hdl hh
      simp only [hh]
      exact List.mem_cons_self _ _
    · intro sub u now
      simp [deliverPush]

/-- C4 witness: the stop contract evaluated at the concrete running state
with live handle `7`, plus the no-op case at the idle initial state. -/
theorem stopPipeline_spec_witness :
    (stopPipeline (Except.ok ()) baseState).executionId = none ∧
    (stopPipeline (Except.ok ()) baseState).pipelineStatus = .idle ∧
    (stopPipeline (Except.ok ()) baseState).currentStepIndex = -1 ∧
    (stopPipeline (Except.ok ()) baseState).isConnected = false ∧
    (stopPipeline (Except.ok ()) baseState).unsubHandle = none ∧
    7 ∈ (stopPipeline (Except.ok ()) baseState).closedSubs ∧
    deliverPush 7 updNoCounts 9 (stopPipeline (Except.ok ()) baseState)
      = stopPipeline (Except.ok ()) baseState ∧
    stopPipeline (Except.ok ()) initialState = initialState := by
  have h := (stopPipeline_spec baseState (Except.ok ())).2 (by decide)
  have h0 := (stopPipeline_spec initialState (Except.ok ())).1 rfl
  exact ⟨h.2.1, h.1, h.2.2.1, h.2.2.2.1, h.2.2.2.2.1,
    h.2.2.2.2.2.1 7 rfl, h.2.2.2.2.2.2 7 updNoCounts 9, h0⟩

/-- C5 counterexample: `updateStepData` on an unknown id stamps
`lastUpdate` (the stamp sits outside the found-check), so the state is not
entirely unchanged; and on a matching id the condensed entry's `status` is
overwritten with `undefined` by a patch that only carries `progress`,
instead of being left unchanged. -/
theorem updateStepData_not_framed :
    (initialState.stepData.find? (fun d => d.id == "missing") = none) ∧
    (initialState.lastUpdate = none) ∧
    ((updateStepData "missing" {} 7 initialState).lastUpdate = some 7) ∧
    (baseState.steps.map (fun c => c.status) = [some .pending]) ∧
    ((updateStepData "extraction" { progress := some 50 } 7 baseState).steps.map
        (fun c => c.status) = [none]) := by
  decide

/-- C5 (amended): on an unknown id `updateStepData` changes nothing except
stamping `lastUpdate`; on a matching id the fields present in the patch
are merged into the full-list entry (the rest preserved), while the
condensed entry's `status`/`progress`/`warnings`/`errors` are each
overwritten with the patch's possibly absent values, its `id`/`name`
staying unchanged; `lastUpdate` is always stamped. -/
theorem updateStepData_spec (stepId : String) (p : StepDataPatch) (now : Nat)
    (s : PipelineState) :
    (s.stepData.find? (fun x => x.id == stepId) = none →
      updateStepData stepId p now s = { s with lastUpdate := some now }) ∧
    (∀ d c, s.stepData.find? (fun x => x.id == stepId) = some d →
      s.steps.find? (fun x => x.id == stepId) = some c →
      (updateStepData stepId p now s).stepData.find? (fun x => x.id == stepId)
        = some (mergePatchFull p d) ∧
      (updateStepData stepId p now s).steps.find? (fun x => x.id == stepId)
        = some (mirrorPatchCondensed p c) ∧
      (mergePatchFull p d).status = p.status.getD d.status ∧
      (mergePatchFull p d).progress = p.progress.getD d.progress ∧
      (mergePatchFull p d).warnings = p.warnings.getD d.warnings ∧
      (mergePatchFull p d).errors = p.errors.getD d.errors ∧
      (mergePatchFull p d).logs = p.logs.getD d.logs ∧
      (mergePatchFull p d).id = d.id ∧
      (mergePatchFull p d).name = d.name ∧
      (mirrorPatchCondensed p c).status = p.status ∧
      (mirrorPatchCondensed p c).progress = p.progress ∧
      (mirrorPatchCondensed p c).warnings = p.warnings ∧
      (mirrorPatchCondensed p c).errors = p.errors ∧
      (mirrorPatchCondensed p c).id = c.id ∧
      (mirrorPatchCondensed p c).name = c.name) ∧
    (updateStepData stepId p now s).lastUpdate = some now := by
  have hpfd : ∀ a : PipelineStepData, (a.id == stepId) = true →
      ((mergePatchFull p a).id == stepId) = true := fun _ ha => ha
  have hpfc : ∀ a : StepStatus, (a.id == stepId) = true →
      ((mirrorPatchCondensed p a).id == stepId) = true := fun _ ha => ha
  refine ⟨?_, ?_, ?_⟩
  · intro h
    unfold updateStepData
    rw [if_neg (by simp [h])]
  · intro d c hd hc
    refine ⟨?_, ?_, rfl, rfl, rfl, rfl, rfl, rfl, rfl, rfl, rfl, rfl, rfl,
      rfl, rfl⟩
    · unfold updateStepData
      rw [if_pos (by simp [hd])]
      exact updateFirst_find? hpfd hd
    · unfold updateStepData
      rw [if_pos (by simp [hd])]
      exact updateFirst_find? hpfc hc
  · unfold updateStepData
    split <;> rfl

/-- C5 witness: the amended contract evaluated on the concrete running
state for a matching id, and on the initial state for an unknown id. -/
theorem updateStepData_spec_witness :
    (updateStepData "extraction" { progress := some 50 } 7 baseState).stepData.find?
        (fun x => x.id == "extraction")
      = some (mergePatchFull { progress := some 50 } stepA) ∧
    (updateStepData "extraction" { progress := some 50 } 7 baseState).steps.find?
        (fun x => x.id == "extraction")
      = some (mirrorPatchCondensed { progress := some 50 } condA) ∧
    (updateStepData "extraction" { progress := some 50 } 7 baseState).lastUpdate
      = some 7 ∧
    updateStepData "missing" {} 7 initialState
      = { initialState with lastUpdate := some 7 } := by
  have h := updateStepData_spec "extraction" { progress := some 50 } 7 baseState
  have h2 := h.2.1 stepA condA (by decide) (by decide)
  have h0 := (updateStepData_spec "missing" {} 7 initialState).1 (by decide)
  exact ⟨h2.1, h2.2.1, h.2.2, h0⟩

/-- C6 counterexample: the `hydrate` action is a plain shallow merge — the
persisted ordered-sequence form of `expandedSteps` is stored as-is (no
conversion to set form: a subsequent `toggleStepExpansion` cannot treat it
as a set and leaves it untouched), and a persisted `optimisticUpdates`
value survives hydration instead of the map being empty. -/
theorem hydrate_raw_assign :
    ((hydrate patchC6 initialState).expandedSteps
      = .seq ["extraction", "detection"]) ∧
    ((hydrate patchC6 initialState).optimisticUpdates
      = [("extraction", { progress := some 1 })]) ∧
    ((hydrate patchC6 initialState).optimisticUpdates ≠ []) ∧
    ((toggleStepExpansion "analysis" (hydrate patchC6 initialState)).expandedSteps
      = .seq ["extraction", "detection"]) ∧
    ((hydrate patchC6 initialState).isLeftPanelCollapsed = true) := by
  decide

/-- C6 (amended): `hydrate` itself shallow-merges the patch unchanged
(including any persisted `optimisticUpdates` value); the conversion of the
persisted sequence back to set form and the emptying of the
optimistic-update map are performed by the persist middleware's
`onRehydrateStorage` callback, after which `expandedSteps` is in set form
and holds exactly the persisted identifiers. -/
theorem hydrate_onRehydrate_spec :
    (∀ (p : StatePatch) (s : PipelineState),
      (hydrate p s).isLeftPanelCollapsed
        = p.isLeftPanelCollapsed.getD s.isLeftPanelCollapsed ∧
      (hydrate p s).expandedSteps = p.expandedSteps.getD s.expandedSteps ∧
      (hydrate p s).optimisticUpdates
        = p.optimisticUpdates.getD s.optimisticUpdates) ∧
    (∀ s : PipelineState,
      (onRehydrateStorage s).optimisticUpdates = [] ∧
      (onRehydrateStorage s).expandedSteps
        = .set (jsSetOfArray s.expandedSteps.elems) ∧
      ∀ x, x ∈ jsSetOfArray s.expandedSteps.elems ↔ x ∈ s.expandedSteps.elems) :=
  ⟨fun _ _ => ⟨rfl, rfl, rfl⟩,
   fun s => ⟨rfl, rfl, fun x => mem_jsSetOfArray s.expandedSteps.elems x⟩⟩

/-- C7: on a successful save the returned configuration is appended to the
cached list and set current (the error field untouched); on a failed save
only the error message is recorded, the list and the current configuration
staying completely unchanged. -/
theorem saveConfiguration_spec (s : PipelineState) (cfg : PipelineConfiguration)
    (msg : String) :
    ((saveConfiguration (Except.ok cfg) s).configurations
        = s.configurations ++ [cfg] ∧
     (saveConfiguration (Except.ok cfg) s).currentConfiguration = some cfg ∧
     (saveConfiguration (Except.ok cfg) s).configurationError
        = s.configurationError) ∧
    ((saveConfiguration (Except.error msg) s).configurations
        = s.configurations ∧
     (saveConfiguration (Except.error msg) s).currentConfiguration
        = s.currentConfiguration ∧
     (saveConfiguration (Except.error msg) s).configurationError = some msg) :=
  ⟨⟨rfl, rfl, rfl⟩, ⟨rfl, rfl, rfl⟩⟩

/-- C9: a successful `loadConfiguration` leaves `configurationError`
exactly as it was (it never clears a previously recorded error), whereas
`loadConfigurations` clears the error field before fetching, so its
successful run ends with no recorded error. -/
theorem loadConfiguration_keeps_error (s : PipelineState)
    (cfg : PipelineConfiguration) (cfgs : List PipelineConfiguration) :
    (loadConfiguration (Except.ok cfg) s).configurationError
      = s.configurationError ∧
    (loadConfigurationsStart s).configurationError = none ∧
    (loadConfigurations (Except.ok cfgs) s).configurationError = none :=
  ⟨rfl, rfl, rfl⟩

/-- C10: `applyOptimisticUpdate` records the patch in the
optimistic-update map (replacing any prior entry for the id) and also
immediately routes the same patch through `updateStepData`, so the full
and condensed lists change exactly as `updateStepData` changes them and
`lastUpdate` is stamped. -/
theorem applyOptimisticUpdate_spec (stepId : String) (p : StepDataPatch)
    (now : Nat) (s : PipelineState) :
    mapGet stepId (applyOptimisticUpdate stepId p now s).optimisticUpdates
      = some p ∧
    (applyOptimisticUpdate stepId p now s).stepData
      = (updateStepData stepId p now s).stepData ∧
    (applyOptimisticUpdate stepId p now s).steps
      = (updateStepData stepId p now s).steps ∧
    (applyOptimisticUpdate stepId p now s).lastUpdate = some now := by
  refine ⟨?_, ?_, ?_, ?_⟩
  · unfold applyOptimisticUpdate updateStepData
    split
    · exact mapGet_mapSet stepId p s.optimisticUpdates
    · exact mapGet_mapSet stepId p s.optimisticUpdates
  · simp only [applyOptimisticUpdate, updateStepData]
    split <;> rfl
  · simp only [applyOptimisticUpdate, updateStepData]
    split <;> rfl
  · unfold applyOptimisticUpdate updateStepData
    split
    · rfl
    · rfl

end PipelineStore

namespace NotificationService

/-- The guarded `forEach` visits every subscriber in order. -/
theorem notifySubscribers_eq_map (subs : List Callback) (n : ToastNotification) :
    notifySubscribers subs n = subs.map (fun cb => cb n) := by
  induction subs with
  | nil => rfl
  | cons cb rest ih => simp [notifySubscribers, ih]

/-- C8: when a notification is shown, every subscriber callback is invoked
exactly once with the notification — the outcome list has one entry per
subscriber and the `j`-th entry is exactly the `j`-th callback applied to
the notification — even when some callback (here the `i`-th) throws, and
`showNotification` itself returns normally rather than propagating the
exception. -/
theorem showNotification_delivers_all (st : ServiceState)
    (opts : NotificationOptions) (fid : String) (ts : Nat) (i : Nat) (e : String)
    (hi : i < st.subscribers.length)
    (_hthrow : st.subscribers.get ⟨i, hi⟩ (mkToast opts fid ts)
      = Except.error e) :
    (showNotification opts fid ts st).2.1.length = st.subscribers.length ∧
    ∀ j (hj : j < st.subscribers.length),
      (showNotification opts fid ts st).2.1[j]?
        = some (st.subscribers.get ⟨j, hj⟩ (mkToast opts fid ts)) := by
  constructor
  · show (notifySubscribers st.subscribers (mkToast opts fid ts)).length
      = st.subscribers.length
    rw [notifySubscribers_eq_map]
    exact List.length_map _ _
  · intro j hj
    show (notifySubscribers st.subscribers (mkToast opts fid ts))[j]? = _
    rw [notifySubscribers_eq_map]
    simp [List.getElem?_eq_getElem, hj, List.getElem?_map]

/-- C8 witness: the delivery theorem evaluated on a concrete subscriber
list whose first callback throws; the second callback still receives the
notification and succeeds. -/
theorem showNotification_delivers_all_witness :
    (showNotification optsC8 "notification-1" 0 stC8).2.1.length = 2 ∧
    (showNotification optsC8 "notification-1" 0 stC8).2.1[0]?
      = some (Except.error "boom") ∧
    (showNotification optsC8 "notification-1" 0 stC8).2.1[1]?
      = some (Except.ok ()) := by
  have h := showNotification_delivers_all stC8 optsC8 "notification-1" 0 0 "boom"
    (by decide) rfl
  refine ⟨h.1, ?_, ?_⟩
  · have h0 := h.2 0 (by decide)
    simpa [stC8, cbThrow] using h0
  · have h1 := h.2 1 (by decide)
    simpa [stC8, cbOk] using h1

end NotificationService
